import Mathlib

/-!
Verification of the XAI-engine design specification of the `bads` repository
(notebook `exercises/8_ex_XAI.ipynb` plus its design-level spec for a
permutation-feature-importance / partial-dependence / ICE engine).

The repository's notebook delegates the engines to external libraries; the
spec describes them at design level.  The engine definitions below are
therefore modelled from the spec's algorithm descriptions; the data-preparation
pipeline (dropna / pop / train-test split) is embedded from the notebook's
data-preparation cell.
-/

set_option autoImplicit false

namespace XAI

/-- A cell value of the dataset: numeric or categorical (spec §3, Dataset). -/
inductive Value where
  | num (q : ℚ)
  | cat (s : String)
deriving DecidableEq, Repr

/-- A row of the dataset: one value per feature, in schema order. -/
abbrev Row := List Value

/-- Modelled from the spec: a Dataset is an ordered sequence of rows over a
named, ordered schema of features (spec §3). -/
structure Dataset where
  schema : List String
  rows : List Row
deriving DecidableEq, Repr

/-- Whether a feature is continuous or categorical (spec §3, FeatureSpec). -/
inductive FeatKind where
  | continuous
  | categorical
deriving DecidableEq, Repr

/-- Modelled from the spec: a FeatureSpec identifies one feature by name and
declares its kind (spec §3 and §9: kind is declared, not inferred). -/
structure FeatureSpec where
  name : String
  kind : FeatKind
deriving DecidableEq, Repr

/-- Direction of the metric (spec §4.1). -/
inductive Direction where
  | higher_is_better
  | lower_is_better
deriving DecidableEq, Repr

/-- Error taxonomy of the engines (spec §7). -/
inductive EngineError where
  | invalidInput
  | invalidFeature
  | scorerFailure (msg : String)
deriving DecidableEq, Repr

/-- A prediction: `none` encodes NaN (undefined prediction, spec §4.2). -/
abbrev Pred := Option ℚ

/-- Modelled from the spec: a ScoringFunction maps a feature matrix to
predictions; it may fail (ScorerFailure is propagated from it, spec §6, §7). -/
abbrev ScoringFn := Dataset → Except String (List Pred)

/-- Modelled from the spec: a MetricFunction maps (predictions, labels) to a
scalar score (spec §6). -/
abbrev MetricFn := List Pred → List ℚ → ℚ

/-! ### Seeded pseudo-random generator and permutations (spec §9: explicit
seeded generator, no hidden global state) -/

/-- One step of a linear congruential generator over 32-bit words. -/
def lcg (s : Nat) : Nat := (1664525 * s + 1013904223) % 4294967296

/-- The seed used for trial number `k` of a run seeded with `seed`:
the `k+1`-st iterate of the generator (index-stable trial order, spec §5). -/
def seedAt (seed : Nat) : Nat → Nat
  | 0 => lcg seed
  | k + 1 => lcg (seedAt seed k)

/-- Fisher–Yates style draw: repeatedly pick a position of the remaining pool
(fuel-structured so the definition computes by `rfl`). -/
def drawAll : Nat → Nat → List Nat → List Nat
  | 0, _, _ => []
  | fuel + 1, s, l =>
    if l.length = 0 then []
    else
      let i := s % l.length
      l.getD i 0 :: drawAll fuel (lcg s) (l.eraseIdx i)

/-- Modelled from the spec: a seeded random permutation of the row indices
`0, …, n-1` (spec §4.1: "independently permuted using a seeded random
permutation of row indices"). -/
def permFromSeed (seed n : Nat) : List Nat :=
  drawAll n seed (List.range n)

/-! ### Cell access and column surgery on private copies -/

/-- Map over a list with the index of each element. -/
def mapWithIdx {α : Type} (f : Nat → α → α) : Nat → List α → List α
  | _, [] => []
  | k, a :: as => f k a :: mapWithIdx f (k + 1) as

/-- The value of the dataset at row `i`, column `j` (default `num 0` out of
range). -/
def cell (X : Dataset) (i j : Nat) : Value :=
  (((X.rows.get? i).getD []).get? j).getD (Value.num 0)

/-- A fresh dataset equal to `X` except that column `f` is replaced by
`newCol` (row `i` takes `newCol[i]`); the caller's `X` is untouched
(copy-on-permute discipline, spec §4.1 / §5). -/
def setColumn (X : Dataset) (f : Nat) (newCol : List Value) : Dataset :=
  ⟨X.schema,
    mapWithIdx
      (fun i r => mapWithIdx (fun j v => if j = f then newCol.getD i v else v) 0 r)
      0 X.rows⟩

/-- The values of column `j`, one per row. -/
def colVals (X : Dataset) (j : Nat) : List Value :=
  X.rows.map (fun r => r.getD j (Value.num 0))

/-- Modelled from the spec: `X'` equal to `X` except column `f` is permuted by
the index permutation `p` (spec §4.1). -/
def permuteColumn (X : Dataset) (f : Nat) (p : List Nat) : Dataset :=
  setColumn X f (p.map (fun k => (colVals X f).getD k (Value.num 0)))

/-- Modelled from the spec: `X_v` = `X` with column `f` set to the constant `v`
for every row (spec §4.2, marginalization step). -/
def overrideColumn (X : Dataset) (f : Nat) (v : Value) : Dataset :=
  setColumn X f (List.replicate X.rows.length v)

/-! ### Error-propagating traversal -/

/-- Apply `g` to every element, aborting at the first error and discarding all
partial results (fail-fast propagation, spec §7). -/
def tryMap {α β : Type} (g : α → Except EngineError β) :
    List α → Except EngineError (List β)
  | [] => .ok []
  | a :: as =>
    match g a with
    | .error e => .error e
    | .ok b =>
      match tryMap g as with
      | .error e => .error e
      | .ok bs => .ok (b :: bs)

/-- Pair names with score lists positionally. -/
def pairUp {α β : Type} : List α → List β → List (α × β)
  | a :: as, b :: bs => (a, b) :: pairUp as bs
  | _, _ => []

/-! ### PermutationImportanceEngine (spec §4.1) -/

/-- Modelled from the spec: per-feature repeated importance scores, in original
column order (spec §3, ImportanceResult). -/
structure ImportanceResult where
  scores : List (String × List ℚ)
deriving DecidableEq, Repr

/-- The signed importance of one trial: `s0 - s_f` if higher is better, else
`s_f - s0` (spec §4.1). -/
def signedImp (d : Direction) (s0 sf : ℚ) : ℚ :=
  match d with
  | .higher_is_better => s0 - sf
  | .lower_is_better => sf - s0

/-- Modelled from the spec: the private permuted dataset used for trial `r` of
feature `f` (spec §4.1): column `f` of `X` permuted by the seeded permutation
of trial number `f * nRepeats + r`. -/
def trialDataset (X : Dataset) (seed nRepeats f r : Nat) : Dataset :=
  permuteColumn X f (permFromSeed (seedAt seed (f * nRepeats + r)) X.rows.length)

/-- One trial: score the permuted dataset, propagating scorer failures
(spec §4.1, §7). -/
def trialScore (sc : ScoringFn) (m : MetricFn) (X : Dataset) (y : List ℚ)
    (seed nRepeats : Nat) (d : Direction) (s0 : ℚ) (f r : Nat) :
    Except EngineError ℚ :=
  match sc (trialDataset X seed nRepeats f r) with
  | .error e => .error (.scorerFailure e)
  | .ok preds => .ok (signedImp d s0 (m preds y))

/-- All `nRepeats` importance scores of feature `f` (spec §4.1). -/
def featureScores (sc : ScoringFn) (m : MetricFn) (X : Dataset) (y : List ℚ)
    (seed nRepeats : Nat) (d : Direction) (s0 : ℚ) (f : Nat) :
    Except EngineError (List ℚ) :=
  tryMap (trialScore sc m X y seed nRepeats d s0 f) (List.range nRepeats)

namespace PermutationImportanceEngine

/-- Modelled from the spec: `PermutationImportanceEngine.compute` (spec §4.1).
Validity of the inputs is checked eagerly before any scoring call; the
baseline is scored once; each feature gets `nRepeats` independent seeded
trials; scorer failures abort the whole run. -/
def compute (sc : ScoringFn) (m : MetricFn) (X : Dataset) (y : List ℚ)
    (nRepeats seed : Nat) (d : Direction) : Except EngineError ImportanceResult :=
  if X.rows.length ≠ y.length ∨ nRepeats < 1 then .error .invalidInput
  else
    match sc X with
    | .error e => .error (.scorerFailure e)
    | .ok basePreds =>
      let s0 := m basePreds y
      match tryMap (featureScores sc m X y seed nRepeats d s0)
          (List.range X.schema.length) with
      | .error e => .error e
      | .ok lists => .ok ⟨pairUp X.schema lists⟩

end PermutationImportanceEngine

/-! ### Grid construction (spec §4.2) -/

/-- The numeric reading of a cell (continuous features hold `num` values). -/
def ratOf : Value → ℚ
  | .num q => q
  | .cat _ => 0

/-- The numeric values of column `j`. -/
def colRats (X : Dataset) (j : Nat) : List ℚ :=
  (colVals X j).map ratOf

/-- Minimum of a list of rationals (0 on the empty list). -/
def listMin : List ℚ → ℚ
  | [] => 0
  | x :: xs => xs.foldl min x

/-- Maximum of a list of rationals (0 on the empty list). -/
def listMax : List ℚ → ℚ
  | [] => 0
  | x :: xs => xs.foldl max x

/-- Modelled from the spec: `res` evenly spaced values from `a` to `b`
inclusive (spec §4.2, grid construction for continuous features). -/
def linspace (a b : ℚ) (res : Nat) : List ℚ :=
  (List.range res).map (fun j : Nat => a + (b - a) * (j : ℚ) / ((res - 1 : Nat) : ℚ))

/-- The distinct elements of a list in first-seen order. -/
def firstSeen {α : Type} [DecidableEq α] : List α → List α
  | [] => []
  | a :: as => a :: (firstSeen as).filter (fun b => b ≠ a)

/-- Modelled from the spec: the evaluation grid of a feature (spec §4.2):
for a continuous feature, `gridRes` evenly spaced values spanning the observed
minimum to maximum; for a categorical feature, the distinct observed
categories in first-seen order. -/
def buildGrid (X : Dataset) (f : FeatureSpec) (gridRes : Nat) : List Value :=
  let j := X.schema.indexOf f.name
  match f.kind with
  | .continuous =>
    (linspace (listMin (colRats X j)) (listMax (colRats X j)) gridRes).map Value.num
  | .categorical => firstSeen (colVals X j)

/-! ### Partial dependence and ICE engines (spec §4.2, §4.3) -/

/-- NaN-excluding mean: undefined predictions are dropped; if every prediction
is NaN the mean itself is NaN (`none`) (spec §4.2, numeric semantics). -/
def nanMean (preds : List Pred) : Option ℚ :=
  let vals := preds.filterMap id
  if vals.length = 0 then none else some (vals.sum / vals.length)

/-- Whether any prediction in the list is NaN. -/
def hasNaN (preds : List Pred) : Bool :=
  preds.any (fun p => p.isNone)

/-- Score the dataset with column `fIdx` overridden to the grid value `v`,
propagating scorer failures (spec §4.2). -/
def gridEval (sc : ScoringFn) (X : Dataset) (fIdx : Nat) (v : Value) :
    Except EngineError (List Pred) :=
  match sc (overrideColumn X fIdx v) with
  | .error e => .error (.scorerFailure e)
  | .ok preds => .ok preds

/-- Modelled from the spec: a PartialDependenceResult is an ordered sequence of
(grid value, averaged prediction) pairs, together with the non-fatal
PartialNaNWarning signal (spec §3, §4.2, §7). -/
structure PDResult where
  points : List (Value × Option ℚ)
  nanWarning : Bool
deriving DecidableEq, Repr

namespace PartialDependenceEngine

/-- Modelled from the spec: `PartialDependenceEngine.compute` (spec §4.2).
Feature membership and grid resolution are checked eagerly; each grid value is
scored on a private override copy; NaN predictions are excluded from the mean
with a warning; scorer failures abort the whole run. -/
def compute (sc : ScoringFn) (X : Dataset) (f : FeatureSpec) (gridRes : Nat) :
    Except EngineError PDResult :=
  if f.name ∉ X.schema then .error .invalidFeature
  else if f.kind = .continuous ∧ gridRes < 2 then .error .invalidInput
  else
    let fIdx := X.schema.indexOf f.name
    let grid := buildGrid X f gridRes
    match tryMap (gridEval sc X fIdx) grid with
    | .error e => .error e
    | .ok predLists =>
      .ok ⟨pairUp grid (predLists.map nanMean),
           predLists.any (fun ps => hasNaN ps)⟩

end PartialDependenceEngine

/-- Modelled from the spec: an ICEResult holds one (grid value, prediction)
curve per original row, all sharing the same grid (spec §3, §4.3). -/
structure ICEResult where
  curves : List (List (Value × Pred))
deriving DecidableEq, Repr

namespace ICEEngine

/-- Modelled from the spec: the ICE engine (spec §4.3) reuses the grid and the
grid-evaluation of §4.2 but does not average: row `i`'s curve pairs each grid
value with the prediction for row `i` under that override. -/
def compute (sc : ScoringFn) (X : Dataset) (f : FeatureSpec) (gridRes : Nat) :
    Except EngineError ICEResult :=
  if f.name ∉ X.schema then .error .invalidFeature
  else if f.kind = .continuous ∧ gridRes < 2 then .error .invalidInput
  else
    let fIdx := X.schema.indexOf f.name
    let grid := buildGrid X f gridRes
    match tryMap (gridEval sc X fIdx) grid with
    | .error e => .error e
    | .ok predLists =>
      .ok ⟨(List.range X.rows.length).map
            (fun i => pairUp grid (predLists.map (fun ps => ps.getD i none)))⟩

end ICEEngine

/-! ### Ranking derived from an ImportanceResult (spec §3, ImportanceResult) -/

/-- The arithmetic mean of a list of scores (0 on the empty list). -/
def meanScore (l : List ℚ) : ℚ := l.sum / l.length

/-- Mean importance of the feature at column index `i`. -/
def meanAt (res : ImportanceResult) (i : Nat) : ℚ :=
  meanScore ((res.scores.getD i ("", [])).2)

/-- The ranking order on column indices: higher mean first, ties broken by
original column order (spec §3). -/
def rankRel (res : ImportanceResult) (i j : Nat) : Prop :=
  meanAt res j < meanAt res i ∨ (meanAt res i = meanAt res j ∧ i ≤ j)

instance rankRelDecidable (res : ImportanceResult) :
    DecidableRel (rankRel res) := fun i j => by
  unfold rankRel; infer_instance

/-- Modelled from the spec: the derived ranking of an ImportanceResult —
column indices sorted by mean score descending, ties broken by original column
order (spec §3). -/
def ranking (res : ImportanceResult) : List Nat :=
  List.insertionSort (rankRel res) (List.range res.scores.length)

/-! ### Notebook data-preparation cell (src/exercises/8_ex_XAI.ipynb) -/

/-- A pandas-style frame: named columns and rows of possibly missing numeric
values (`none` = missing / NaN). -/
structure Frame where
  cols : List String
  rows : List (List (Option ℚ))
deriving DecidableEq, Repr

/-- `X.dropna()`: drop all rows containing one or more missing value. -/
def Frame.dropna (F : Frame) : Frame :=
  ⟨F.cols, F.rows.filter (fun r => r.all (fun v => v.isSome))⟩

/-- `X.pop(c)`: remove column `c` from the frame and return it as a vector,
paired with the remaining frame. -/
def Frame.pop (F : Frame) (c : String) : List (Option ℚ) × Frame :=
  let j := F.cols.indexOf c
  (F.rows.map (fun r => r.getD j none),
   ⟨F.cols.eraseIdx j, F.rows.map (fun r => r.eraseIdx j)⟩)

/-- Modelled from the spec: `sklearn.model_selection.train_test_split` with a
fixed `random_state` — a deterministic seeded shuffle of the row indices,
holding out the last `⌊n · tsFrac⌋` shuffled rows as the test part (the
library's exact shuffle is external; any fixed seeded permutation realizes the
reproducibility contract). -/
def trainTestSplit (X : Frame) (y : List (Option ℚ)) (tsFrac : ℚ)
    (randomState : Nat) :
    Frame × Frame × List (Option ℚ) × List (Option ℚ) :=
  let n := X.rows.length
  let nTest := (tsFrac * n).floor.toNat
  let perm := permFromSeed randomState n
  let xs := perm.map (fun i => X.rows.getD i [])
  let ys := perm.map (fun i => y.getD i none)
  (⟨X.cols, xs.drop nTest⟩, ⟨X.cols, xs.take nTest⟩, ys.drop nTest, ys.take nTest)

/-- The notebook's data-preparation pipeline after one-hot encoding: drop
missing rows, pop the target column `BAD`, then split 70/30 at random state
888 (cell 3 of `8_ex_XAI.ipynb`). -/
def prepare (F : Frame) :
    Frame × List (Option ℚ) × (Frame × Frame × List (Option ℚ) × List (Option ℚ)) :=
  let D := F.dropna
  let p := D.pop "BAD"
  (p.2, p.1, trainTestSplit p.2 p.1 (3 / 10) 888)

/-! ## Helper lemmas -/

theorem tryMap_ok_length {α β : Type} {g : α → Except EngineError β}
    {l : List α} {bs : List β} (h : tryMap g l = .ok bs) :
    bs.length = l.length := by
  induction l generalizing bs with
  | nil => simp only [tryMap] at h; cases h; rfl
  | cons a as ih =>
    simp only [tryMap] at h
    cases hg : g a with
    | error e => rw [hg] at h; cases h
    | ok b =>
      rw [hg] at h
      cases ht : tryMap g as with
      | error e => rw [ht] at h; cases h
      | ok bs' =>
        rw [ht] at h
        cases h
        simp [ih ht]

theorem tryMap_ok_getD {α β : Type} {g : α → Except EngineError β}
    {l : List α} {bs : List β} (h : tryMap g l = .ok bs)
    (da : α) (db : β) :
    ∀ i, i < l.length → g (l.getD i da) = .ok (bs.getD i db) := by
  induction l generalizing bs with
  | nil => intro i hi; simp at hi
  | cons a as ih =>
    simp only [tryMap] at h
    cases hg : g a with
    | error e => rw [hg] at h; cases h
    | ok b =>
      rw [hg] at h
      cases ht : tryMap g as with
      | error e => rw [ht] at h; cases h
      | ok bs' =>
        rw [ht] at h
        cases h
        intro i hi
        cases i with
        | zero => simpa using hg
        | succ i =>
          simp only [List.getD_cons_succ]
          exact ih ht i (by simpa using hi)

theorem tryMap_ok_of_mem {α β : Type} {g : α → Except EngineError β}
    {l : List α} {bs : List β} (h : tryMap g l = .ok bs) :
    ∀ a ∈ l, ∃ b, g a = .ok b := by
  induction l generalizing bs with
  | nil => intro a ha; simp at ha
  | cons a as ih =>
    simp only [tryMap] at h
    cases hg : g a with
    | error e => rw [hg] at h; cases h
    | ok b =>
      rw [hg] at h
      cases ht : tryMap g as with
      | error e => rw [ht] at h; cases h
      | ok bs' =>
        intro x hx
        rcases List.mem_cons.mp hx with hx | hx
        · exact ⟨b, hx ▸ hg⟩
        · exact ih ht x hx

theorem pairUp_length {α β : Type} :
    ∀ (as : List α) (bs : List β), as.length = bs.length →
      (pairUp as bs).length = as.length
  | [], [], _ => rfl
  | [], _ :: _, h => by simp at h
  | _ :: _, [], h => by simp at h
  | _ :: as, _ :: bs, h => by
    simp only [pairUp, List.length_cons]
    exact congrArg (· + 1) (pairUp_length as bs (by simpa using h))

theorem pairUp_getD {α β : Type} (da : α) (db : β) :
    ∀ (as : List α) (bs : List β), as.length = bs.length →
      ∀ i, i < as.length →
        (pairUp as bs).getD i (da, db) = (as.getD i da, bs.getD i db)
  | [], [], _ => by intro i hi; simp at hi
  | [], _ :: _, h => by simp at h
  | _ :: _, [], h => by simp at h
  | a :: as, b :: bs, h => by
    intro i hi
    cases i with
    | zero => rfl
    | succ i =>
      simp only [pairUp, List.getD_cons_succ]
      exact pairUp_getD da db as bs (by simpa using h) i (by simpa using hi)

theorem mapWithIdx_length {α : Type} (f : Nat → α → α) :
    ∀ (k : Nat) (l : List α), (mapWithIdx f k l).length = l.length
  | _, [] => rfl
  | k, _ :: as => by
    simp only [mapWithIdx, List.length_cons]
    exact congrArg (· + 1) (mapWithIdx_length f (k + 1) as)

theorem mapWithIdx_get? {α : Type} (f : Nat → α → α) :
    ∀ (k : Nat) (l : List α) (i : Nat),
      (mapWithIdx f k l).get? i = Option.map (f (k + i)) (l.get? i)
  | _, [], i => by cases i <;> rfl
  | k, a :: as, 0 => rfl
  | k, a :: as, i + 1 => by
    simp only [mapWithIdx, List.get?_cons_succ]
    rw [mapWithIdx_get? f (k + 1) as i]
    ring_nf

theorem setColumn_schema (X : Dataset) (f : Nat) (c : List Value) :
    (setColumn X f c).schema = X.schema := rfl

theorem setColumn_rows_length (X : Dataset) (f : Nat) (c : List Value) :
    (setColumn X f c).rows.length = X.rows.length :=
  mapWithIdx_length _ 0 X.rows

theorem cell_setColumn_ne (X : Dataset) (f : Nat) (c : List Value)
    (i j : Nat) (hj : j ≠ f) :
    cell (setColumn X f c) i j = cell X i j := by
  unfold cell setColumn
  dsimp only
  rw [mapWithIdx_get?]
  cases hr : X.rows.get? i with
  | none => rfl
  | some r =>
    simp only [Option.map_some', Option.getD_some]
    rw [mapWithIdx_get?]
    cases hv : r.get? j with
    | none => rfl
    | some v => simp [hj]

theorem permuteColumn_schema (X : Dataset) (f : Nat) (p : List Nat) :
    (permuteColumn X f p).schema = X.schema := rfl

theorem permuteColumn_rows_length (X : Dataset) (f : Nat) (p : List Nat) :
    (permuteColumn X f p).rows.length = X.rows.length :=
  setColumn_rows_length _ _ _

theorem overrideColumn_rows_length (X : Dataset) (f : Nat) (v : Value) :
    (overrideColumn X f v).rows.length = X.rows.length :=
  setColumn_rows_length _ _ _

theorem compute_ok_char
    (sc : ScoringFn) (m : MetricFn) (X : Dataset) (y : List ℚ)
    (nRepeats seed : Nat) (d : Direction) (res : ImportanceResult)
    (h : PermutationImportanceEngine.compute sc m X y nRepeats seed d = .ok res) :
    (X.rows.length = y.length ∧ 1 ≤ nRepeats) ∧
    ∃ basePreds lists,
      sc X = .ok basePreds ∧
      tryMap (featureScores sc m X y seed nRepeats d (m basePreds y))
        (List.range X.schema.length) = .ok lists ∧
      lists.length = X.schema.length ∧
      res = ⟨pairUp X.schema lists⟩ := by
  unfold PermutationImportanceEngine.compute at h
  by_cases hv : X.rows.length ≠ y.length ∨ nRepeats < 1
  · rw [if_pos hv] at h; cases h
  rw [if_neg hv] at h
  push_neg at hv
  cases hb : sc X with
  | error e => rw [hb] at h; cases h
  | ok basePreds =>
    rw [hb] at h
    simp only at h
    cases ht : tryMap (featureScores sc m X y seed nRepeats d (m basePreds y))
        (List.range X.schema.length) with
    | error e => rw [ht] at h; cases h
    | ok lists =>
      rw [ht] at h
      cases h
      exact ⟨⟨hv.1, hv.2⟩, basePreds, lists, rfl, ht,
        by simpa using tryMap_ok_length ht, rfl⟩

theorem tryMap_not_ok {α β : Type} {g : α → Except EngineError β}
    {l : List α} {a : α} (ha : a ∈ l) (hfail : ∀ b, g a ≠ .ok b) :
    ∀ bs, tryMap g l ≠ .ok bs := by
  intro bs h
  rcases tryMap_ok_of_mem h a ha with ⟨b, hb⟩
  exact hfail b hb

theorem tryMap_ok_of_all {α β : Type} {g : α → Except EngineError β} :
    ∀ l : List α, (∀ a ∈ l, ∃ b, g a = .ok b) → ∃ bs, tryMap g l = .ok bs
  | [] => fun _ => ⟨[], rfl⟩
  | a :: as => fun h => by
    rcases h a (List.mem_cons_self a as) with ⟨b, hb⟩
    rcases tryMap_ok_of_all as (fun x hx => h x (List.mem_cons_of_mem a hx)) with
      ⟨bs, hbs⟩
    exact ⟨b :: bs, by simp [tryMap, hb, hbs]⟩

theorem tryMap_first_error {α β : Type} {g : α → Except EngineError β}
    {e : EngineError} (d : α) :
    ∀ (l : List α) (i : Nat), i < l.length →
      (∀ k, k < i → ∃ b, g (l.getD k d) = .ok b) →
      g (l.getD i d) = .error e →
      tryMap g l = .error e
  | [], i, hi, _, _ => by simp at hi
  | a :: as, 0, _, _, hf => by
    simp only [List.getD_cons_zero] at hf
    simp [tryMap, hf]
  | a :: as, i + 1, hi, hearly, hf => by
    rcases hearly 0 (Nat.succ_pos i) with ⟨b, hb⟩
    simp only [List.getD_cons_zero] at hb
    have ih := tryMap_first_error d as i (by simpa using hi)
      (fun k hk => by simpa using hearly (k + 1) (Nat.succ_lt_succ hk))
      (by simpa using hf)
    simp [tryMap, hb, ih]

/-! ## Claims -/

/-- C1: for a fixed seed, repeat count, data, labels, scoring and metric
function, `PermutationImportanceEngine.compute` is a pure function of its
arguments — two calls use bit-identical permuted trial datasets and return
identical `ImportanceResult` values. -/
theorem permutation_importance_deterministic
    (sc : ScoringFn) (m : MetricFn) (X : Dataset) (y : List ℚ)
    (nRepeats seed : Nat) (d : Direction) :
    (∀ f r, trialDataset X seed nRepeats f r = trialDataset X seed nRepeats f r) ∧
    PermutationImportanceEngine.compute sc m X y nRepeats seed d =
      PermutationImportanceEngine.compute sc m X y nRepeats seed d :=
  ⟨fun _ _ => rfl, rfl⟩

/-- C2: a successful `PermutationImportanceEngine.compute` returns one entry
per feature in column order, each holding exactly `nRepeats` scores, and the
`r`-th score of feature `f` is `signedImp d s0 s_f` where
`s0 = m (scoringFn X) y` and `s_f` is the metric on `X` with only column `f`
permuted (the seeded trial dataset). -/
theorem permutation_importance_output
    (sc : ScoringFn) (m : MetricFn) (X : Dataset) (y : List ℚ)
    (nRepeats seed : Nat) (d : Direction) (res : ImportanceResult)
    (h : PermutationImportanceEngine.compute sc m X y nRepeats seed d = .ok res) :
    res.scores.length = X.schema.length ∧
    ∃ basePreds, sc X = .ok basePreds ∧
      ∀ f, f < X.schema.length →
        (res.scores.getD f ("", [])).1 = X.schema.getD f "" ∧
        (res.scores.getD f ("", [])).2.length = nRepeats ∧
        ∀ r, r < nRepeats → ∃ preds,
          sc (trialDataset X seed nRepeats f r) = .ok preds ∧
          (res.scores.getD f ("", [])).2.getD r 0
            = signedImp d (m basePreds y) (m preds y) := by
  unfold PermutationImportanceEngine.compute at h
  by_cases hv : X.rows.length ≠ y.length ∨ nRepeats < 1
  · rw [if_pos hv] at h; cases h
  rw [if_neg hv] at h
  cases hb : sc X with
  | error e => rw [hb] at h; cases h
  | ok basePreds =>
    rw [hb] at h
    simp only at h
    cases ht : tryMap (featureScores sc m X y seed nRepeats d (m basePreds y))
        (List.range X.schema.length) with
    | error e => rw [ht] at h; cases h
    | ok lists =>
      rw [ht] at h
      cases h
      have hlen : lists.length = X.schema.length := by
        simpa using tryMap_ok_length ht
      refine ⟨?_, basePreds, rfl, ?_⟩
      · simp [pairUp_length X.schema lists hlen.symm]
      intro f hf
      have hfs := tryMap_ok_getD ht 0 [] f (by simpa using hf)
      rw [List.getD_eq_getElem _ _ (by simpa using hf), List.getElem_range] at hfs
      have hpair := pairUp_getD "" ([] : List ℚ) X.schema lists hlen.symm f hf
      unfold featureScores at hfs
      have hrlen : (lists.getD f []).length = nRepeats := by
        simpa using tryMap_ok_length hfs
      refine ⟨by rw [hpair], by rw [hpair]; exact hrlen, ?_⟩
      intro r hr
      have htr := tryMap_ok_getD hfs 0 0 r (by simpa using hr)
      rw [List.getD_eq_getElem _ _ (by simpa using hr), List.getElem_range] at htr
      unfold trialScore at htr
      cases hp : sc (trialDataset X seed nRepeats f r) with
      | error e => rw [hp] at htr; cases htr
      | ok preds =>
        rw [hp] at htr
        rw [Except.ok.injEq] at htr
        exact ⟨preds, rfl, by rw [hpair]; exact htr.symm⟩

/-- C6: invalid preconditions — mismatched row counts or `nRepeats < 1` for
the importance engine, an unknown feature or `gridRes < 2` for a continuous
feature for the PDP and ICE engines — fail eagerly with `InvalidInput` /
`InvalidFeature`.  The error is returned for **every** scoring function, so no
invocation of `scoringFn` can influence (or be needed for) the outcome, and no
partial result is returned. -/
theorem eager_input_validation :
    (∀ (sc : ScoringFn) (m : MetricFn) (X : Dataset) (y : List ℚ)
        (nRepeats seed : Nat) (d : Direction),
      (X.rows.length ≠ y.length ∨ nRepeats < 1) →
      PermutationImportanceEngine.compute sc m X y nRepeats seed d
        = .error .invalidInput) ∧
    (∀ (sc : ScoringFn) (X : Dataset) (f : FeatureSpec) (gridRes : Nat),
      f.name ∉ X.schema →
      PartialDependenceEngine.compute sc X f gridRes = .error .invalidFeature ∧
      ICEEngine.compute sc X f gridRes = .error .invalidFeature) ∧
    (∀ (sc : ScoringFn) (X : Dataset) (f : FeatureSpec) (gridRes : Nat),
      f.name ∈ X.schema → f.kind = .continuous → gridRes < 2 →
      PartialDependenceEngine.compute sc X f gridRes = .error .invalidInput ∧
      ICEEngine.compute sc X f gridRes = .error .invalidInput) := by
  refine ⟨?_, ?_, ?_⟩
  · intro sc m X y nRepeats seed d hbad
    unfold PermutationImportanceEngine.compute
    rw [if_pos hbad]
  · intro sc X f gridRes habs
    constructor
    · unfold PartialDependenceEngine.compute
      rw [if_pos habs]
    · unfold ICEEngine.compute
      rw [if_pos habs]
  · intro sc X f gridRes hmem hcont hres
    constructor
    · unfold PartialDependenceEngine.compute
      rw [if_neg (by simpa using hmem), if_pos ⟨hcont, hres⟩]
    · unfold ICEEngine.compute
      rw [if_neg (by simpa using hmem), if_pos ⟨hcont, hres⟩]

theorem linspace_length (a b : ℚ) (res : Nat) : (linspace a b res).length = res := by
  unfold linspace
  rw [List.length_map, List.length_range]

theorem linspace_getD (a b : ℚ) (res j : Nat) (hj : j < res) :
    (linspace a b res).getD j 0 = a + (b - a) * (j : ℚ) / ((res - 1 : Nat) : ℚ) := by
  unfold linspace
  rw [List.getD_eq_getElem _ _ (by rw [List.length_map, List.length_range]; exact hj)]
  rw [List.getElem_map, List.getElem_range]

theorem firstSeen_sublist {α : Type} [DecidableEq α] :
    ∀ l : List α, List.Sublist (firstSeen l) l
  | [] => List.Sublist.refl []
  | a :: as => by
    simpa [firstSeen] using
      ((List.filter_sublist (firstSeen as)).trans (firstSeen_sublist as)).cons₂ a

theorem firstSeen_nodup {α : Type} [DecidableEq α] :
    ∀ l : List α, (firstSeen l).Nodup
  | [] => List.nodup_nil
  | a :: as => by
    refine List.nodup_cons.mpr ⟨?_, (firstSeen_nodup as).filter _⟩
    intro hmem
    have := List.of_mem_filter hmem
    simp at this

theorem mem_firstSeen {α : Type} [DecidableEq α] (x : α) :
    ∀ l : List α, x ∈ firstSeen l ↔ x ∈ l
  | [] => Iff.rfl
  | a :: as => by
    by_cases hx : x = a
    · simp [firstSeen, hx]
    · simp only [firstSeen, List.mem_cons, List.mem_filter, mem_firstSeen x as]
      simp [hx]

theorem firstSeen_pairwise_indexOf {α : Type} [DecidableEq α] :
    ∀ l : List α,
      (firstSeen l).Pairwise (fun x y => l.indexOf x < l.indexOf y)
  | [] => List.Pairwise.nil
  | a :: as => by
    unfold firstSeen
    refine List.pairwise_cons.mpr ⟨?_, ?_⟩
    · intro y hy
      have hyne : y ≠ a := by simpa using List.of_mem_filter hy
      rw [List.indexOf_cons_self, List.indexOf_cons_ne as hyne.symm]
      exact Nat.succ_pos _
    · have ih := (firstSeen_pairwise_indexOf as).filter (fun b => decide (b ≠ a))
      refine List.Pairwise.imp_of_mem ?_ ih
      intro x y hx hy hr
      have hxne : x ≠ a := by simpa using List.of_mem_filter hx
      have hyne : y ≠ a := by simpa using List.of_mem_filter hy
      rw [List.indexOf_cons_ne as hxne.symm, List.indexOf_cons_ne as hyne.symm]
      exact Nat.succ_lt_succ hr

/-- A dataset whose one continuous feature is constant: its observed range is
degenerate (`a = b`). -/
def XdegGrid : Dataset := ⟨["f"], [[Value.num 1], [Value.num 1]]⟩

/-- The continuous feature of `XdegGrid`. -/
def fsCont : FeatureSpec := ⟨"f", .continuous⟩

/-- C4 counterexample: on a constant continuous feature (observed range
`[1, 1]`) with `grid_resolution = 2`, the grid is `[1, 1]` — its values are
not strictly increasing, refuting the claim as stated. -/
theorem grid_constant_feature_counterexample :
    buildGrid XdegGrid fsCont 2 = [Value.num 1, Value.num 1] ∧
    ¬ (ratOf ((buildGrid XdegGrid fsCont 2).getD 0 (Value.num 0))
        < ratOf ((buildGrid XdegGrid fsCont 2).getD 1 (Value.num 0))) := by
  have hg : buildGrid XdegGrid fsCont 2 = [Value.num 1, Value.num 1] := by
    simp [buildGrid, XdegGrid, fsCont, linspace, colRats, colVals, ratOf,
      listMin, listMax, List.range_succ]
  exact ⟨hg, by rw [hg]; simp [ratOf]⟩

/-- C4 (amended): for a continuous feature and `grid_resolution ≥ 2` the grid
has length exactly `grid_resolution`, is evenly spaced with first value the
observed minimum `a` and last value the observed maximum `b`, and is strictly
increasing whenever `a < b` (for a degenerate observed range `a = b` all grid
values coincide); for a categorical feature the grid is the distinct observed
categories in first-seen order: a duplicate-free subsequence of the observed
column containing exactly its values, strictly ordered by the index of each
category's first occurrence in the column — which uniquely determines the
first-seen order. -/
theorem grid_construction (X : Dataset) (fs : FeatureSpec) (gridRes : Nat)
    (hk : fs.kind = .continuous) (hres : 2 ≤ gridRes) :
    (buildGrid X fs gridRes).length = gridRes ∧
    (buildGrid X fs gridRes).getD 0 (Value.num 0)
      = Value.num (listMin (colRats X (X.schema.indexOf fs.name))) ∧
    (buildGrid X fs gridRes).getD (gridRes - 1) (Value.num 0)
      = Value.num (listMax (colRats X (X.schema.indexOf fs.name))) ∧
    (∀ i, i + 1 < gridRes →
      ratOf ((buildGrid X fs gridRes).getD (i + 1) (Value.num 0))
        - ratOf ((buildGrid X fs gridRes).getD i (Value.num 0))
      = (listMax (colRats X (X.schema.indexOf fs.name))
          - listMin (colRats X (X.schema.indexOf fs.name)))
        / ((gridRes - 1 : Nat) : ℚ)) ∧
    (listMin (colRats X (X.schema.indexOf fs.name))
        < listMax (colRats X (X.schema.indexOf fs.name)) →
      ∀ i, i + 1 < gridRes →
        ratOf ((buildGrid X fs gridRes).getD i (Value.num 0))
          < ratOf ((buildGrid X fs gridRes).getD (i + 1) (Value.num 0))) ∧
    (∀ fc : FeatureSpec, fc.kind = .categorical →
      List.Sublist (buildGrid X fc gridRes)
        (colVals X (X.schema.indexOf fc.name)) ∧
      (buildGrid X fc gridRes).Nodup ∧
      (∀ v, v ∈ buildGrid X fc gridRes ↔
        v ∈ colVals X (X.schema.indexOf fc.name)) ∧
      (buildGrid X fc gridRes).Pairwise (fun u v =>
        (colVals X (X.schema.indexOf fc.name)).indexOf u
          < (colVals X (X.schema.indexOf fc.name)).indexOf v)) := by
  obtain ⟨nm, kd⟩ := fs
  cases kd with
  | categorical => cases hk
  | continuous =>
    set j := X.schema.indexOf nm with hj
    set a := listMin (colRats X j) with ha
    set b := listMax (colRats X j) with hb
    have hgrid : buildGrid X ⟨nm, .continuous⟩ gridRes
        = (linspace a b gridRes).map Value.num := rfl
    obtain ⟨k, rfl⟩ := Nat.exists_eq_add_of_le hres
    have hk1 : (2 + k) - 1 = k + 1 := by omega
    have hcast : (((2 + k) - 1 : Nat) : ℚ) = (k : ℚ) + 1 := by
      rw [hk1]; push_cast; ring
    have hkpos : (0 : ℚ) < (k : ℚ) + 1 := by positivity
    have hgetD : ∀ i, i < 2 + k →
        ((linspace a b (2 + k)).map Value.num).getD i (Value.num 0)
          = Value.num (a + (b - a) * (i : ℚ) / ((k : ℚ) + 1)) := by
      intro i hi
      rw [List.getD_eq_getElem _ _
        (by rw [List.length_map, linspace_length]; exact hi)]
      rw [List.getElem_map]
      have := linspace_getD a b (2 + k) i hi
      rw [List.getD_eq_getElem _ _ (by rw [linspace_length]; exact hi)] at this
      rw [this, hcast]
    refine ⟨?_, ?_, ?_, ?_, ?_, ?_⟩
    · rw [hgrid, List.length_map, linspace_length]
    · rw [hgrid, hgetD 0 (by omega)]
      norm_num
    · rw [hgrid, hk1, hgetD (k + 1) (by omega)]
      congr 1
      push_cast
      rw [mul_div_assoc, div_self (ne_of_gt hkpos), mul_one]
      ring
    · intro i hi
      rw [hgrid, hgetD (i + 1) (by omega), hgetD i (by omega)]
      simp only [ratOf]
      push_cast
      field_simp
      ring
    · intro hab i hi
      rw [hgrid, hgetD (i + 1) (by omega), hgetD i (by omega)]
      simp only [ratOf]
      have hstep : a + (b - a) * ((i : ℚ) + 1) / ((k : ℚ) + 1)
          - (a + (b - a) * (i : ℚ) / ((k : ℚ) + 1))
          = (b - a) / ((k : ℚ) + 1) := by
        field_simp
        ring
      have hpos : (0 : ℚ) < (b - a) / ((k : ℚ) + 1) :=
        div_pos (sub_pos.mpr hab) hkpos
      have := hstep ▸ hpos
      push_cast
      linarith [this]
    · intro fc hfc
      obtain ⟨nmc, kdc⟩ := fc
      cases kdc with
      | continuous => cases hfc
      | categorical =>
        have hgc : buildGrid X ⟨nmc, .categorical⟩ (2 + k)
            = firstSeen (colVals X (X.schema.indexOf nmc)) := rfl
        rw [hgc]
        exact ⟨firstSeen_sublist _, firstSeen_nodup _, fun v => mem_firstSeen v _,
          firstSeen_pairwise_indexOf _⟩

/-- C5: all column surgery happens on private copies — the engines' permuted
or overridden datasets keep the schema, the row count and every column other
than the targeted feature column unchanged, and the label vector is never
touched (it is not even an input of the copy operations).  In this pure
embedding the caller's `X` and `y` are bound immutably, so after any engine
call they are definitionally the values passed in; the content of the claim is
that the private copies differ from `X` in the one permuted / overridden
feature column only. -/
theorem engine_frame_condition (X : Dataset) (f : Nat) (p : List Nat)
    (v : Value) (i j : Nat) (hj : j ≠ f) :
    (permuteColumn X f p).schema = X.schema ∧
    (permuteColumn X f p).rows.length = X.rows.length ∧
    cell (permuteColumn X f p) i j = cell X i j ∧
    (overrideColumn X f v).schema = X.schema ∧
    (overrideColumn X f v).rows.length = X.rows.length ∧
    cell (overrideColumn X f v) i j = cell X i j :=
  ⟨permuteColumn_schema X f p, permuteColumn_rows_length X f p,
    cell_setColumn_ne X f _ i j hj, setColumn_schema X f _,
    overrideColumn_rows_length X f v, cell_setColumn_ne X f _ i j hj⟩

/-- C5 witness at a concrete dataset, column 0 permuted, cell (1, 1). -/
theorem engine_frame_condition_witness :
    (permuteColumn XdegGrid 0 [1, 0]).schema = XdegGrid.schema ∧
    (permuteColumn XdegGrid 0 [1, 0]).rows.length = XdegGrid.rows.length ∧
    cell (permuteColumn XdegGrid 0 [1, 0]) 1 1 = cell XdegGrid 1 1 ∧
    (overrideColumn XdegGrid 0 (Value.num 7)).schema = XdegGrid.schema ∧
    (overrideColumn XdegGrid 0 (Value.num 7)).rows.length = XdegGrid.rows.length ∧
    cell (overrideColumn XdegGrid 0 (Value.num 7)) 1 1 = cell XdegGrid 1 1 :=
  engine_frame_condition XdegGrid 0 [1, 0] (Value.num 7) 1 1 (by decide)

theorem range_map_getD {α : Type} (ps : List α) (d : α) :
    (List.range ps.length).map (fun i => ps.getD i d) = ps := by
  apply List.ext_getElem
  · rw [List.length_map, List.length_range]
  · intro i h1 h2
    rw [List.getElem_map, List.getElem_range]
    exact List.getD_eq_getElem ps d h2

theorem nanMean_eq_none_iff (preds : List Pred) :
    nanMean preds = none ↔ ∀ p ∈ preds, p = none := by
  unfold nanMean
  by_cases h : (preds.filterMap id).length = 0
  · rw [if_pos h]
    rw [List.length_eq_zero] at h
    simp only [true_iff]
    intro p hp
    by_contra hne
    rcases Option.ne_none_iff_exists.mp hne with ⟨q, hq⟩
    have : q ∈ preds.filterMap id := List.mem_filterMap.mpr ⟨p, hp, by rw [← hq]; rfl⟩
    rw [h] at this
    exact absurd this (List.not_mem_nil q)
  · rw [if_neg h]
    constructor
    · intro hc
      cases hc
    · intro hall
      exfalso
      apply h
      rw [List.length_eq_zero, List.filterMap_eq_nil_iff]
      intro p hp
      rw [hall p hp]
      rfl

theorem PDE_ok_char (sc : ScoringFn) (X : Dataset) (fs : FeatureSpec)
    (gridRes : Nat) (pd : PDResult)
    (h : PartialDependenceEngine.compute sc X fs gridRes = .ok pd) :
    ∃ predLists,
      tryMap (gridEval sc X (X.schema.indexOf fs.name))
        (buildGrid X fs gridRes) = .ok predLists ∧
      predLists.length = (buildGrid X fs gridRes).length ∧
      pd = ⟨pairUp (buildGrid X fs gridRes) (predLists.map nanMean),
            predLists.any (fun ps => hasNaN ps)⟩ := by
  unfold PartialDependenceEngine.compute at h
  by_cases h1 : fs.name ∉ X.schema
  · rw [if_pos h1] at h; cases h
  rw [if_neg h1] at h
  by_cases h2 : fs.kind = .continuous ∧ gridRes < 2
  · rw [if_pos h2] at h; cases h
  rw [if_neg h2] at h
  simp only at h
  cases ht : tryMap (gridEval sc X (X.schema.indexOf fs.name))
      (buildGrid X fs gridRes) with
  | error e => rw [ht] at h; cases h
  | ok predLists =>
    rw [ht] at h
    cases h
    exact ⟨predLists, rfl, tryMap_ok_length ht, rfl⟩

theorem ICE_ok_char (sc : ScoringFn) (X : Dataset) (fs : FeatureSpec)
    (gridRes : Nat) (ice : ICEResult)
    (h : ICEEngine.compute sc X fs gridRes = .ok ice) :
    ∃ predLists,
      tryMap (gridEval sc X (X.schema.indexOf fs.name))
        (buildGrid X fs gridRes) = .ok predLists ∧
      predLists.length = (buildGrid X fs gridRes).length ∧
      ice = ⟨(List.range X.rows.length).map
        (fun i => pairUp (buildGrid X fs gridRes)
          (predLists.map (fun ps => ps.getD i none)))⟩ := by
  unfold ICEEngine.compute at h
  by_cases h1 : fs.name ∉ X.schema
  · rw [if_pos h1] at h; cases h
  rw [if_neg h1] at h
  by_cases h2 : fs.kind = .continuous ∧ gridRes < 2
  · rw [if_pos h2] at h; cases h
  rw [if_neg h2] at h
  simp only at h
  cases ht : tryMap (gridEval sc X (X.schema.indexOf fs.name))
      (buildGrid X fs gridRes) with
  | error e => rw [ht] at h; cases h
  | ok predLists =>
    rw [ht] at h
    cases h
    exact ⟨predLists, rfl, tryMap_ok_length ht, rfl⟩

theorem filterMap_id_length (ps : List Pred) (h : ∀ p ∈ ps, p ≠ none) :
    (ps.filterMap id).length = ps.length := by
  induction ps with
  | nil => rfl
  | cons p t ih =>
    rcases Option.ne_none_iff_exists'.mp (h p (List.mem_cons_self p t)) with ⟨q, hq⟩
    subst hq
    simp only [List.filterMap_cons, id, List.length_cons]
    rw [ih (fun p hp => h p (List.mem_cons_of_mem _ hp))]

theorem hasNaN_false_iff (ps : List Pred) :
    hasNaN ps = false ↔ ∀ p ∈ ps, p ≠ none := by
  unfold hasNaN
  rw [List.any_eq_false]
  constructor
  · intro h p hp
    have := h p hp
    rw [Option.isNone_iff_eq_none] at this
    exact this
  · intro h p hp
    rw [Option.isNone_iff_eq_none]
    exact h p hp

theorem nanMean_of_no_nan (ps : List Pred) (hnn : hasNaN ps = false)
    (hne : ps.length ≠ 0) :
    nanMean ps = some ((ps.filterMap id).sum / (ps.length : ℚ)) := by
  have hlen := filterMap_id_length ps ((hasNaN_false_iff ps).mp hnn)
  unfold nanMean
  rw [if_neg (by rw [hlen]; exact hne), hlen]

theorem getD_map {α β : Type} (f : α → β) (l : List α) (i : Nat)
    (hi : i < l.length) (d : β) (d' : α) :
    (l.map f).getD i d = f (l.getD i d') := by
  rw [List.getD_eq_getElem (l.map f) d (by rw [List.length_map]; exact hi),
    List.getElem_map, List.getD_eq_getElem l d' hi]

theorem ice_column_values (grid : List Value) (predLists : List (List Pred))
    (n gp : Nat) (hlen : predLists.length = grid.length)
    (hgp : gp < grid.length) :
    ((List.range n).map (fun i => pairUp grid
        (predLists.map (fun ps => ps.getD i none)))).map
      (fun c => (c.getD gp (Value.num 0, none)).2)
    = (List.range n).map (fun i => (predLists.getD gp []).getD i none) := by
  rw [List.map_map]
  apply List.map_congr_left
  intro i _
  have hlen2 : grid.length = (predLists.map (fun ps => ps.getD i none)).length := by
    rw [List.length_map, hlen]
  have hp := pairUp_getD (Value.num 0) (none : Pred) grid
    (predLists.map (fun ps => ps.getD i none)) hlen2 gp hgp
  simp only [Function.comp_apply]
  rw [hp]
  exact getD_map _ predLists gp (by rw [hlen]; exact hgp) none []

/-- C3: for every feature, grid and dataset, the mean over all rows of the ICE
engine's prediction at a grid point equals the PartialDependenceEngine's value
at the same grid point, computed with the same scoring function (which returns
one prediction per row).  The mean is the NaN-excluding mean of §4.2; when no
prediction at the grid point is NaN and the dataset is nonempty, the PDP value
is literally the arithmetic mean (sum over rows divided by the number of rows)
of the ICE values. -/
theorem ice_pdp_consistency (sc : ScoringFn) (X : Dataset) (fs : FeatureSpec)
    (gridRes : Nat) (pd : PDResult) (ice : ICEResult)
    (hsc : ∀ (v : Value) (preds : List Pred),
      sc (overrideColumn X (X.schema.indexOf fs.name) v) = .ok preds →
      preds.length = X.rows.length)
    (hpd : PartialDependenceEngine.compute sc X fs gridRes = .ok pd)
    (hice : ICEEngine.compute sc X fs gridRes = .ok ice) :
    ice.curves.length = X.rows.length ∧
    ∀ gp, gp < (buildGrid X fs gridRes).length →
      nanMean (ice.curves.map (fun c => (c.getD gp (Value.num 0, none)).2))
        = (pd.points.getD gp (Value.num 0, none)).2 ∧
      (hasNaN (ice.curves.map (fun c => (c.getD gp (Value.num 0, none)).2)) = false →
        X.rows.length ≠ 0 →
        (pd.points.getD gp (Value.num 0, none)).2
          = some (((ice.curves.map
              (fun c => (c.getD gp (Value.num 0, none)).2)).filterMap id).sum
            / (X.rows.length : ℚ))) := by
  obtain ⟨predLists, ht, hlen, hpdeq⟩ := PDE_ok_char sc X fs gridRes pd hpd
  obtain ⟨predLists', ht', hlen', hiceeq⟩ := ICE_ok_char sc X fs gridRes ice hice
  rw [ht] at ht'
  rw [Except.ok.injEq] at ht'
  subst ht'
  subst hpdeq
  subst hiceeq
  have hcur : ∀ gp, gp < (buildGrid X fs gridRes).length →
      ((List.range X.rows.length).map (fun i => pairUp (buildGrid X fs gridRes)
          (predLists.map (fun ps => ps.getD i none)))).map
        (fun c => (c.getD gp (Value.num 0, none)).2)
      = predLists.getD gp [] := by
    intro gp hgp
    rw [ice_column_values (buildGrid X fs gridRes) predLists X.rows.length gp hlen hgp]
    have hev := tryMap_ok_getD ht (Value.num 0) [] gp hgp
    unfold gridEval at hev
    cases hsc' : sc (overrideColumn X (X.schema.indexOf fs.name)
        ((buildGrid X fs gridRes).getD gp (Value.num 0))) with
    | error e => rw [hsc'] at hev; cases hev
    | ok preds =>
      rw [hsc'] at hev
      rw [Except.ok.injEq] at hev
      have hpl : (predLists.getD gp []).length = X.rows.length := by
        rw [← hev]
        exact hsc _ preds hsc'
      rw [← hpl]
      exact range_map_getD (predLists.getD gp []) none
  constructor
  · simp
  intro gp hgp
  have hmap : (pairUp (buildGrid X fs gridRes)
      (predLists.map nanMean)).getD gp (Value.num 0, none)
      = ((buildGrid X fs gridRes).getD gp (Value.num 0),
         nanMean (predLists.getD gp [])) := by
    have hlen2 : (buildGrid X fs gridRes).length
        = (predLists.map nanMean).length := by
      rw [List.length_map, hlen]
    rw [pairUp_getD (Value.num 0) (none : Option ℚ) _ _ hlen2 gp hgp,
      getD_map nanMean predLists gp (by rw [hlen]; exact hgp) none []]
  constructor
  · rw [hcur gp hgp]
    simp only
    rw [hmap]
  · intro hnn hrows
    simp only
    rw [hmap]
    simp only
    rw [hcur gp hgp] at hnn ⊢
    have hpl : (predLists.getD gp []).length = X.rows.length := by
      have hev := tryMap_ok_getD ht (Value.num 0) [] gp hgp
      unfold gridEval at hev
      cases hsc' : sc (overrideColumn X (X.schema.indexOf fs.name)
          ((buildGrid X fs gridRes).getD gp (Value.num 0))) with
      | error e => rw [hsc'] at hev; cases hev
      | ok preds =>
        rw [hsc'] at hev
        rw [Except.ok.injEq] at hev
        rw [← hev]
        exact hsc _ preds hsc'
    rw [nanMean_of_no_nan _ hnn (by rw [hpl]; exact hrows), hpl]

/-- C8: for every grid point of a successful PDP run, the recorded value is
the NaN-excluding mean of the predictions at that grid point; it is NaN
(`none`) exactly when every prediction there is NaN; the non-fatal
`PartialNaNWarning` flag is set exactly when some prediction at some grid
point is NaN (and the computation still returned a complete `ok` result). -/
theorem pdp_nan_semantics (sc : ScoringFn) (X : Dataset) (fs : FeatureSpec)
    (gridRes : Nat) (pd : PDResult)
    (h : PartialDependenceEngine.compute sc X fs gridRes = .ok pd) :
    ∀ gp, gp < (buildGrid X fs gridRes).length →
      ∃ preds,
        sc (overrideColumn X (X.schema.indexOf fs.name)
            ((buildGrid X fs gridRes).getD gp (Value.num 0))) = .ok preds ∧
        (pd.points.getD gp (Value.num 0, none)).2 = nanMean preds ∧
        ((pd.points.getD gp (Value.num 0, none)).2 = none ↔
          ∀ p ∈ preds, p = none) ∧
        (pd.nanWarning = true ↔
          ∃ v ∈ buildGrid X fs gridRes, ∃ preds',
            sc (overrideColumn X (X.schema.indexOf fs.name) v) = .ok preds' ∧
            hasNaN preds' = true) := by
  obtain ⟨predLists, ht, hlen, hpdeq⟩ := PDE_ok_char sc X fs gridRes pd h
  subst hpdeq
  intro gp hgp
  have hev := tryMap_ok_getD ht (Value.num 0) [] gp hgp
  unfold gridEval at hev
  cases hsc : sc (overrideColumn X (X.schema.indexOf fs.name)
      ((buildGrid X fs gridRes).getD gp (Value.num 0))) with
  | error e => rw [hsc] at hev; cases hev
  | ok preds =>
    rw [hsc] at hev
    rw [Except.ok.injEq] at hev
    subst hev
    have hmap : (pairUp (buildGrid X fs gridRes)
        (predLists.map nanMean)).getD gp (Value.num 0, none)
        = ((buildGrid X fs gridRes).getD gp (Value.num 0),
           nanMean (predLists.getD gp [])) := by
      have hlen2 : (buildGrid X fs gridRes).length
          = (predLists.map nanMean).length := by
        rw [List.length_map, hlen]
      rw [pairUp_getD (Value.num 0) (none : Option ℚ) _ _ hlen2 gp hgp,
        getD_map nanMean predLists gp (by rw [hlen]; exact hgp) none []]
    refine ⟨predLists.getD gp [], rfl, ?_, ?_, ?_⟩
    · simp only
      rw [hmap]
    · simp only
      rw [hmap]
      exact nanMean_eq_none_iff (predLists.getD gp [])
    · simp only
      rw [List.any_eq_true]
      constructor
      · rintro ⟨ps, hmem, hnan⟩
        rcases List.mem_iff_getElem.mp hmem with ⟨i, hi, hieq⟩
        refine ⟨(buildGrid X fs gridRes).getD i (Value.num 0),
          ?_, ps, ?_, hnan⟩
        · rw [List.getD_eq_getElem _ _ (by rw [← hlen]; exact hi)]
          exact List.getElem_mem _
        · have hi' : i < (buildGrid X fs gridRes).length := by
            rw [← hlen]; exact hi
          have hev' := tryMap_ok_getD ht (Value.num 0) [] i hi'
          unfold gridEval at hev'
          cases hsc' : sc (overrideColumn X (X.schema.indexOf fs.name)
              ((buildGrid X fs gridRes).getD i (Value.num 0))) with
          | error e => rw [hsc'] at hev'; cases hev'
          | ok preds' =>
            rw [hsc'] at hev'
            rw [Except.ok.injEq] at hev'
            rw [List.getD_eq_getElem predLists _ hi, hieq] at hev'
            rw [← hev']
      · rintro ⟨v, hv, preds', hsc', hnan⟩
        rcases List.mem_iff_getElem.mp hv with ⟨i, hi, hieq⟩
        have hev' := tryMap_ok_getD ht (Value.num 0) [] i hi
        unfold gridEval at hev'
        rw [List.getD_eq_getElem _ _ hi, hieq, hsc'] at hev'
        rw [Except.ok.injEq] at hev'
        refine ⟨predLists.getD i [], ?_, ?_⟩
        · rw [List.getD_eq_getElem predLists _ (by rw [hlen]; exact hi)]
          exact List.getElem_mem _
        · rw [← hev']
          exact hnan

/-- C7: scorer failures propagate as `ScorerFailure` with the scorer's message
unchanged, immediately abort the run, and discard all partial results, for
every engine; a caller only ever sees a complete result or a structured
error.  Part 1: a failing baseline scoring call of the importance engine
yields `ScorerFailure` unchanged.  Part 2: a successful importance run scored
every seeded trial and holds exactly `nRepeats` scores for each feature —
nothing is truncated.  Part 3: any failing trial prevents any `ok` importance
result.  Part 4: the first failing trial (all earlier trials in the fixed
traversal order succeed) makes the importance engine return `ScorerFailure`
with that trial's message unchanged.  Part 5: a successful PDP run scored
every grid value and holds one point per grid value.  Part 6: any failing
grid evaluation prevents any `ok` result of both the PDP and the ICE engine.
Part 7: the first failing grid evaluation makes both the PDP and the ICE
engine return `ScorerFailure` with its message unchanged.  Part 8: a
successful ICE run has one curve per row, each curve one point per grid
value, and scored every grid value. -/
theorem scorer_failure_propagation :
    (∀ (sc : ScoringFn) (m : MetricFn) (X : Dataset) (y : List ℚ)
        (nRepeats seed : Nat) (d : Direction) (e : String),
      ¬(X.rows.length ≠ y.length ∨ nRepeats < 1) → sc X = .error e →
      PermutationImportanceEngine.compute sc m X y nRepeats seed d
        = .error (.scorerFailure e)) ∧
    (∀ (sc : ScoringFn) (m : MetricFn) (X : Dataset) (y : List ℚ)
        (nRepeats seed : Nat) (d : Direction) (res : ImportanceResult),
      PermutationImportanceEngine.compute sc m X y nRepeats seed d = .ok res →
      res.scores.length = X.schema.length ∧
      ∀ f, f < X.schema.length →
        (res.scores.getD f ("", [])).2.length = nRepeats ∧
        ∀ r, r < nRepeats → ∃ preds,
          sc (trialDataset X seed nRepeats f r) = .ok preds) ∧
    (∀ (sc : ScoringFn) (m : MetricFn) (X : Dataset) (y : List ℚ)
        (nRepeats seed : Nat) (d : Direction) (f r : Nat) (e : String),
      f < X.schema.length → r < nRepeats →
      sc (trialDataset X seed nRepeats f r) = .error e →
      ∀ res, PermutationImportanceEngine.compute sc m X y nRepeats seed d
        ≠ .ok res) ∧
    (∀ (sc : ScoringFn) (m : MetricFn) (X : Dataset) (y : List ℚ)
        (nRepeats seed : Nat) (d : Direction) (f r : Nat) (e : String)
        (basePreds : List Pred),
      ¬(X.rows.length ≠ y.length ∨ nRepeats < 1) →
      sc X = .ok basePreds →
      f < X.schema.length → r < nRepeats →
      (∀ f' r', f' < X.schema.length → r' < nRepeats →
        (f' < f ∨ (f' = f ∧ r' < r)) →
        ∃ preds, sc (trialDataset X seed nRepeats f' r') = .ok preds) →
      sc (trialDataset X seed nRepeats f r) = .error e →
      PermutationImportanceEngine.compute sc m X y nRepeats seed d
        = .error (.scorerFailure e)) ∧
    (∀ (sc : ScoringFn) (X : Dataset) (fs : FeatureSpec) (gridRes : Nat)
        (pd : PDResult),
      PartialDependenceEngine.compute sc X fs gridRes = .ok pd →
      pd.points.length = (buildGrid X fs gridRes).length ∧
      ∀ v ∈ buildGrid X fs gridRes, ∃ preds,
        sc (overrideColumn X (X.schema.indexOf fs.name) v) = .ok preds) ∧
    (∀ (sc : ScoringFn) (X : Dataset) (fs : FeatureSpec) (gridRes : Nat)
        (v : Value) (e : String),
      v ∈ buildGrid X fs gridRes →
      sc (overrideColumn X (X.schema.indexOf fs.name) v) = .error e →
      (∀ pd, PartialDependenceEngine.compute sc X fs gridRes ≠ .ok pd) ∧
      (∀ ice, ICEEngine.compute sc X fs gridRes ≠ .ok ice)) ∧
    (∀ (sc : ScoringFn) (X : Dataset) (fs : FeatureSpec) (gridRes : Nat)
        (gp : Nat) (e : String),
      fs.name ∈ X.schema → ¬(fs.kind = .continuous ∧ gridRes < 2) →
      gp < (buildGrid X fs gridRes).length →
      (∀ k, k < gp → ∃ preds,
        sc (overrideColumn X (X.schema.indexOf fs.name)
          ((buildGrid X fs gridRes).getD k (Value.num 0))) = .ok preds) →
      sc (overrideColumn X (X.schema.indexOf fs.name)
        ((buildGrid X fs gridRes).getD gp (Value.num 0))) = .error e →
      PartialDependenceEngine.compute sc X fs gridRes
        = .error (.scorerFailure e) ∧
      ICEEngine.compute sc X fs gridRes = .error (.scorerFailure e)) ∧
    (∀ (sc : ScoringFn) (X : Dataset) (fs : FeatureSpec) (gridRes : Nat)
        (ice : ICEResult),
      ICEEngine.compute sc X fs gridRes = .ok ice →
      ice.curves.length = X.rows.length ∧
      (∀ c ∈ ice.curves, c.length = (buildGrid X fs gridRes).length) ∧
      ∀ v ∈ buildGrid X fs gridRes, ∃ preds,
        sc (overrideColumn X (X.schema.indexOf fs.name) v) = .ok preds) := by
  refine ⟨?_, ?_, ?_, ?_, ?_, ?_, ?_, ?_⟩
  · intro sc m X y nRepeats seed d e hok hfail
    unfold PermutationImportanceEngine.compute
    rw [if_neg hok, hfail]
  · intro sc m X y nRepeats seed d res h
    obtain ⟨-, basePreds, lists, -, ht, hlen, hres⟩ :=
      compute_ok_char sc m X y nRepeats seed d res h
    subst hres
    refine ⟨by simp [pairUp_length X.schema lists hlen.symm], ?_⟩
    intro f hf
    have hfs := tryMap_ok_getD ht 0 [] f (by simpa using hf)
    rw [List.getD_eq_getElem _ _ (by simpa using hf), List.getElem_range] at hfs
    have hpair := pairUp_getD "" ([] : List ℚ) X.schema lists hlen.symm f hf
    unfold featureScores at hfs
    refine ⟨by rw [hpair]; simpa using tryMap_ok_length hfs, ?_⟩
    intro r hr
    have htr := tryMap_ok_getD hfs 0 0 r (by simpa using hr)
    rw [List.getD_eq_getElem _ _ (by simpa using hr), List.getElem_range] at htr
    unfold trialScore at htr
    cases hp : sc (trialDataset X seed nRepeats f r) with
    | error e => rw [hp] at htr; cases htr
    | ok preds => exact ⟨preds, rfl⟩
  · intro sc m X y nRepeats seed d f r e hf hr hfail res h
    obtain ⟨-, basePreds, lists, -, ht, hlen, -⟩ :=
      compute_ok_char sc m X y nRepeats seed d res h
    have hfs := tryMap_ok_getD ht 0 [] f (by simpa using hf)
    rw [List.getD_eq_getElem _ _ (by simpa using hf), List.getElem_range] at hfs
    unfold featureScores at hfs
    have htr := tryMap_ok_getD hfs 0 0 r (by simpa using hr)
    rw [List.getD_eq_getElem _ _ (by simpa using hr), List.getElem_range] at htr
    unfold trialScore at htr
    rw [hfail] at htr
    cases htr
  · intro sc m X y nRepeats seed d f r e basePreds hval hbase hf hr hearlier hfail
    have hfeat : tryMap
        (featureScores sc m X y seed nRepeats d (m basePreds y))
        (List.range X.schema.length) = .error (.scorerFailure e) := by
      apply tryMap_first_error 0 (List.range X.schema.length) f
        (by simpa using hf)
      · intro k hk
        rw [List.getD_eq_getElem _ _ (by simpa using lt_trans hk hf),
          List.getElem_range]
        apply tryMap_ok_of_all
        intro r' hr'
        rcases hearlier k r' (lt_trans hk hf) (by simpa using hr')
            (Or.inl hk) with ⟨preds, hp⟩
        exact ⟨signedImp d (m basePreds y) (m preds y),
          by unfold trialScore; rw [hp]⟩
      · rw [List.getD_eq_getElem _ _ (by simpa using hf), List.getElem_range]
        unfold featureScores
        apply tryMap_first_error 0 (List.range nRepeats) r (by simpa using hr)
        · intro k hk
          rw [List.getD_eq_getElem _ _ (by simpa using lt_trans hk hr),
            List.getElem_range]
          rcases hearlier f k hf (lt_trans hk hr) (Or.inr ⟨rfl, hk⟩) with
            ⟨preds, hp⟩
          exact ⟨signedImp d (m basePreds y) (m preds y),
            by unfold trialScore; rw [hp]⟩
        · rw [List.getD_eq_getElem _ _ (by simpa using hr), List.getElem_range]
          unfold trialScore
          rw [hfail]
    unfold PermutationImportanceEngine.compute
    rw [if_neg hval, hbase]
    dsimp only
    rw [hfeat]
  · intro sc X fs gridRes pd h
    obtain ⟨predLists, ht, hlen, hpdeq⟩ := PDE_ok_char sc X fs gridRes pd h
    subst hpdeq
    have hlen2 : (buildGrid X fs gridRes).length
        = (List.map nanMean predLists).length := by
      rw [List.length_map, hlen]
    refine ⟨pairUp_length _ _ hlen2, ?_⟩
    intro v hv
    rcases tryMap_ok_of_mem ht v hv with ⟨preds, hp⟩
    unfold gridEval at hp
    cases hsc : sc (overrideColumn X (X.schema.indexOf fs.name) v) with
    | error e => rw [hsc] at hp; cases hp
    | ok preds' => exact ⟨preds', rfl⟩
  · intro sc X fs gridRes v e hv hfail
    constructor
    · intro pd h
      obtain ⟨predLists, ht, -, -⟩ := PDE_ok_char sc X fs gridRes pd h
      rcases tryMap_ok_of_mem ht v hv with ⟨preds, hp⟩
      unfold gridEval at hp
      rw [hfail] at hp
      cases hp
    · intro ice h
      obtain ⟨predLists, ht, -, -⟩ := ICE_ok_char sc X fs gridRes ice h
      rcases tryMap_ok_of_mem ht v hv with ⟨preds, hp⟩
      unfold gridEval at hp
      rw [hfail] at hp
      cases hp
  · intro sc X fs gridRes gp e hmem hval2 hgp hearly hfail
    have htm : tryMap (gridEval sc X (X.schema.indexOf fs.name))
        (buildGrid X fs gridRes) = .error (.scorerFailure e) := by
      apply tryMap_first_error (Value.num 0) _ gp hgp
      · intro k hk
        rcases hearly k hk with ⟨preds, hp⟩
        exact ⟨preds, by unfold gridEval; rw [hp]⟩
      · unfold gridEval
        rw [hfail]
    constructor
    · unfold PartialDependenceEngine.compute
      rw [if_neg (not_not_intro hmem), if_neg hval2]
      dsimp only
      rw [htm]
    · unfold ICEEngine.compute
      rw [if_neg (not_not_intro hmem), if_neg hval2]
      dsimp only
      rw [htm]
  · intro sc X fs gridRes ice h
    obtain ⟨predLists, ht, hlen, hiceeq⟩ := ICE_ok_char sc X fs gridRes ice h
    subst hiceeq
    refine ⟨by simp, ?_, ?_⟩
    · intro c hc
      rcases List.mem_map.mp hc with ⟨i, -, hceq⟩
      rw [← hceq]
      apply pairUp_length
      rw [List.length_map, hlen]
    · intro v hv
      rcases tryMap_ok_of_mem ht v hv with ⟨preds, hp⟩
      unfold gridEval at hp
      cases hsc : sc (overrideColumn X (X.schema.indexOf fs.name) v) with
      | error e => rw [hsc] at hp; cases hp
      | ok preds' => exact ⟨preds', rfl⟩

theorem rankRel_total (res : ImportanceResult) (i j : Nat) :
    rankRel res i j ∨ rankRel res j i := by
  rcases lt_trichotomy (meanAt res i) (meanAt res j) with h | h | h
  · exact Or.inr (Or.inl h)
  · rcases Nat.le_total i j with hij | hij
    · exact Or.inl (Or.inr ⟨h, hij⟩)
    · exact Or.inr (Or.inr ⟨h.symm, hij⟩)
  · exact Or.inl (Or.inl h)

theorem rankRel_trans (res : ImportanceResult) (i j k : Nat)
    (h1 : rankRel res i j) (h2 : rankRel res j k) : rankRel res i k := by
  rcases h1 with h1 | ⟨h1e, h1le⟩
  · rcases h2 with h2 | ⟨h2e, _⟩
    · exact Or.inl (lt_trans h2 h1)
    · exact Or.inl (h2e ▸ h1)
  · rcases h2 with h2 | ⟨h2e, h2le⟩
    · exact Or.inl (h1e ▸ h2)
    · exact Or.inr ⟨h1e.trans h2e, le_trans h1le h2le⟩

/-- C9: the ranking derived from an `ImportanceResult` is a total order on the
feature column indices: it is sorted by mean importance score descending with
ties broken by original column order (`rankRel`), and it is a permutation of
all column indices (each feature appears exactly once). -/
theorem importance_ranking_total_order (res : ImportanceResult) :
    List.Sorted (rankRel res) (ranking res) ∧
    (ranking res).Perm (List.range res.scores.length) ∧
    (ranking res).Nodup := by
  haveI : IsTotal Nat (rankRel res) := ⟨rankRel_total res⟩
  haveI : IsTrans Nat (rankRel res) := ⟨rankRel_trans res⟩
  refine ⟨List.sorted_insertionSort _ _, List.perm_insertionSort _ _, ?_⟩
  exact ((List.perm_insertionSort (rankRel res)
    (List.range res.scores.length)).nodup_iff).mpr (List.nodup_range _)

theorem not_mem_eraseIdx_indexOf {α : Type} [DecidableEq α] (c : α) :
    ∀ l : List α, c ∈ l → l.Nodup → c ∉ l.eraseIdx (l.indexOf c)
  | [], hc, _ => by simp at hc
  | a :: as, hc, hnd => by
    obtain ⟨ha, hnd'⟩ := List.nodup_cons.mp hnd
    by_cases hca : c = a
    · subst hca
      rw [List.indexOf_cons_self, List.eraseIdx_cons_zero]
      exact ha
    · have hcs : c ∈ as := by
        rcases List.mem_cons.mp hc with h | h
        · exact absurd h hca
        · exact h
      rw [List.indexOf_cons_ne as (fun h => hca h.symm)]
      rw [show (List.indexOf c as).succ = List.indexOf c as + 1 from rfl,
        List.eraseIdx_cons_succ]
      intro hmem
      rcases List.mem_cons.mp hmem with h | h
      · exact hca h
      · exact not_mem_eraseIdx_indexOf c as hcs hnd' h

/-- C10: after the notebook's data-preparation cell, the feature frame no
longer contains the popped target column `BAD`; the label vector and the
feature frame have equal row counts; neither contains a missing value (all
rows with missing values were dropped first); and the 70/30 split at random
state 888 is a pure function of its arguments, so it produces the same
partition on every run. -/
theorem notebook_data_preparation (F : Frame)
    (hBAD : "BAD" ∈ F.cols) (hnd : F.cols.Nodup)
    (hrows : ∀ r ∈ F.rows, r.length = F.cols.length) :
    "BAD" ∉ (F.dropna.pop "BAD").2.cols ∧
    (F.dropna.pop "BAD").1.length = (F.dropna.pop "BAD").2.rows.length ∧
    (∀ r ∈ (F.dropna.pop "BAD").2.rows, ∀ v ∈ r, v.isSome = true) ∧
    (∀ v ∈ (F.dropna.pop "BAD").1, v.isSome = true) ∧
    trainTestSplit (F.dropna.pop "BAD").2 (F.dropna.pop "BAD").1 (3 / 10) 888
      = trainTestSplit (F.dropna.pop "BAD").2 (F.dropna.pop "BAD").1 (3 / 10) 888
    := by
  have hdc : F.dropna.cols = F.cols := rfl
  refine ⟨?_, ?_, ?_, ?_, rfl⟩
  · unfold Frame.pop
    simp only
    rw [hdc]
    exact not_mem_eraseIdx_indexOf "BAD" F.cols hBAD hnd
  · unfold Frame.pop
    simp only
    rw [List.length_map, List.length_map]
  · intro r hr v hv
    unfold Frame.pop at hr
    simp only at hr
    rcases List.mem_map.mp hr with ⟨r', hr', hr'eq⟩
    unfold Frame.dropna at hr'
    simp only at hr'
    obtain ⟨-, hall⟩ := List.mem_filter.mp hr'
    have hv' : v ∈ r' := (List.eraseIdx_sublist r' _).subset (hr'eq ▸ hv)
    exact List.all_eq_true.mp hall v hv'
  · intro v hv
    unfold Frame.pop at hv
    simp only at hv
    rcases List.mem_map.mp hv with ⟨r', hr', hr'eq⟩
    unfold Frame.dropna at hr'
    simp only at hr'
    obtain ⟨hmem, hall⟩ := List.mem_filter.mp hr'
    have hjlt : F.dropna.cols.indexOf "BAD" < r'.length := by
      rw [hdc, hrows r' hmem]
      exact List.indexOf_lt_length.mpr hBAD
    rw [← hr'eq, List.getD_eq_getElem r' none hjlt]
    exact List.all_eq_true.mp hall _ (List.getElem_mem hjlt)

/-! ## Concrete fixtures for witnesses -/

/-- A 2×2 dataset with features `A`, `B`. -/
def wX : Dataset := ⟨["A", "B"], [[Value.num 0, Value.num 1], [Value.num 2, Value.num 3]]⟩

/-- A scoring function returning column `A` as predictions. -/
def wSc : ScoringFn := fun D => .ok ((colRats D 0).map some)

/-- Mean-absolute-error style metric. -/
def wM : MetricFn := fun preds y => ((pairUp preds y).map (fun p => |p.1.getD 0 - p.2|)).sum

/-- The importance result of `wSc`/`wM` on `wX` at seed 5 with one repeat. -/
def wRes : ImportanceResult := ⟨[("A", [0]), ("B", [0])]⟩

/-- A scoring function returning the constant prediction 1 for every row. -/
def wSc3 : ScoringFn := fun D => .ok (D.rows.map (fun _ => some 1))

/-- The PDP result of `wSc3` on `XdegGrid` at grid resolution 2. -/
def wPd : PDResult := ⟨[(Value.num 1, some 1), (Value.num 1, some 1)], false⟩

/-- The ICE result of `wSc3` on `XdegGrid` at grid resolution 2. -/
def wIce : ICEResult := ⟨[[(Value.num 1, some 1), (Value.num 1, some 1)],
  [(Value.num 1, some 1), (Value.num 1, some 1)]]⟩

/-- A scoring function that always fails. -/
def wScFail : ScoringFn := fun _ => .error "boom"

/-- A scoring function whose first-row prediction is NaN. -/
def wScNaN : ScoringFn := fun D =>
  .ok ((List.range D.rows.length).map (fun i => if i = 0 then none else some 2))

/-- The PDP result of `wScNaN` on `XdegGrid`: NaNs excluded, warning set. -/
def wPdN : PDResult := ⟨[(Value.num 1, some 2), (Value.num 1, some 2)], true⟩

/-- A dataset with one continuous feature of observed range `[0, 2]`. -/
def wX4 : Dataset := ⟨["f"], [[Value.num 0], [Value.num 2]]⟩

/-- A small frame with a `BAD` column and one row with a missing value. -/
def wF : Frame := ⟨["BAD", "L"], [[some 1, some 2], [none, some 3], [some 0, some 4]]⟩

/-- C2 witness: the characterization holds on the concrete run of `wSc`/`wM`
on `wX` at seed 5 with one repeat. -/
theorem permutation_importance_output_witness :
    wRes.scores.length = wX.schema.length ∧
    ∃ basePreds, wSc wX = .ok basePreds ∧
      ∀ f, f < wX.schema.length →
        (wRes.scores.getD f ("", [])).1 = wX.schema.getD f "" ∧
        (wRes.scores.getD f ("", [])).2.length = 1 ∧
        ∀ r, r < 1 → ∃ preds,
          wSc (trialDataset wX 5 1 f r) = .ok preds ∧
          (wRes.scores.getD f ("", [])).2.getD r 0
            = signedImp Direction.higher_is_better
                (wM basePreds [0, 1]) (wM preds [0, 1]) :=
  permutation_importance_output wSc wM wX [0, 1] 1 5 Direction.higher_is_better wRes
    (by simp [PermutationImportanceEngine.compute, featureScores, tryMap, trialScore,
      trialDataset, permFromSeed, drawAll, lcg, seedAt, wSc, wM, wX, wRes, signedImp,
      permuteColumn, setColumn, mapWithIdx, colVals, colRats, ratOf, pairUp])

/-- C3 witness: ICE/PDP consistency on the concrete run of `wSc3` on
`XdegGrid` at grid resolution 2. -/
theorem ice_pdp_consistency_witness :
    wIce.curves.length = XdegGrid.rows.length ∧
    ∀ gp, gp < (buildGrid XdegGrid fsCont 2).length →
      nanMean (wIce.curves.map (fun c => (c.getD gp (Value.num 0, none)).2))
        = (wPd.points.getD gp (Value.num 0, none)).2 ∧
      (hasNaN (wIce.curves.map (fun c => (c.getD gp (Value.num 0, none)).2)) = false →
        XdegGrid.rows.length ≠ 0 →
        (wPd.points.getD gp (Value.num 0, none)).2
          = some (((wIce.curves.map
              (fun c => (c.getD gp (Value.num 0, none)).2)).filterMap id).sum
            / (XdegGrid.rows.length : ℚ))) :=
  ice_pdp_consistency wSc3 XdegGrid fsCont 2 wPd wIce
    (fun v preds h => by
      cases h
      rw [List.length_map]
      exact overrideColumn_rows_length _ _ _)
    (by simp [PartialDependenceEngine.compute, buildGrid, linspace, listMin, listMax,
      colRats, colVals, ratOf, XdegGrid, fsCont, tryMap, gridEval, wSc3, overrideColumn,
      setColumn, mapWithIdx, nanMean, hasNaN, pairUp, wPd, List.range_succ, List.replicate])
    (by simp [ICEEngine.compute, buildGrid, linspace, listMin, listMax, colRats,
      colVals, ratOf, XdegGrid, fsCont, tryMap, gridEval, wSc3, overrideColumn, setColumn,
      mapWithIdx, nanMean, hasNaN, pairUp, wIce, List.range_succ, List.replicate])

/-- C4 witness: the amended grid properties hold concretely for the observed
range `[0, 2]` at grid resolution 3. -/
theorem grid_construction_witness :
    (buildGrid wX4 fsCont 3).length = 3 ∧
    (buildGrid wX4 fsCont 3).getD 0 (Value.num 0)
      = Value.num (listMin (colRats wX4 (wX4.schema.indexOf fsCont.name))) ∧
    (buildGrid wX4 fsCont 3).getD (3 - 1) (Value.num 0)
      = Value.num (listMax (colRats wX4 (wX4.schema.indexOf fsCont.name))) ∧
    (∀ i, i + 1 < 3 →
      ratOf ((buildGrid wX4 fsCont 3).getD (i + 1) (Value.num 0))
        - ratOf ((buildGrid wX4 fsCont 3).getD i (Value.num 0))
      = (listMax (colRats wX4 (wX4.schema.indexOf fsCont.name))
          - listMin (colRats wX4 (wX4.schema.indexOf fsCont.name)))
        / ((3 - 1 : Nat) : ℚ)) ∧
    (listMin (colRats wX4 (wX4.schema.indexOf fsCont.name))
        < listMax (colRats wX4 (wX4.schema.indexOf fsCont.name)) →
      ∀ i, i + 1 < 3 →
        ratOf ((buildGrid wX4 fsCont 3).getD i (Value.num 0))
          < ratOf ((buildGrid wX4 fsCont 3).getD (i + 1) (Value.num 0))) ∧
    (∀ fc : FeatureSpec, fc.kind = .categorical →
      List.Sublist (buildGrid wX4 fc 3)
        (colVals wX4 (wX4.schema.indexOf fc.name)) ∧
      (buildGrid wX4 fc 3).Nodup ∧
      (∀ v, v ∈ buildGrid wX4 fc 3 ↔
        v ∈ colVals wX4 (wX4.schema.indexOf fc.name)) ∧
      (buildGrid wX4 fc 3).Pairwise (fun u v =>
        (colVals wX4 (wX4.schema.indexOf fc.name)).indexOf u
          < (colVals wX4 (wX4.schema.indexOf fc.name)).indexOf v)) :=
  grid_construction wX4 fsCont 3 rfl (by decide)

/-- C6 witness: mismatched row counts (`wX` has 2 rows, `y` has 1 entry) give
`InvalidInput` for every scoring function, here `wSc`. -/
theorem eager_input_validation_witness :
    PermutationImportanceEngine.compute wSc wM wX [0] 1 5 Direction.higher_is_better
      = .error .invalidInput :=
  eager_input_validation.1 wSc wM wX [0] 1 5 Direction.higher_is_better
    (Or.inl (by simp [wX]))

/-- C7 witness: a baseline scorer failure is propagated unchanged. -/
theorem scorer_failure_propagation_witness :
    PermutationImportanceEngine.compute wScFail wM wX [0, 1] 1 5
      Direction.higher_is_better = .error (.scorerFailure "boom") :=
  scorer_failure_propagation.1 wScFail wM wX [0, 1] 1 5
    Direction.higher_is_better "boom" (by simp [wX]) rfl

/-- C8 witness: NaN semantics on the concrete run of `wScNaN` on `XdegGrid`,
instantiated at grid point 0. -/
theorem pdp_nan_semantics_witness :
    ∃ preds,
      wScNaN (overrideColumn XdegGrid (XdegGrid.schema.indexOf fsCont.name)
          ((buildGrid XdegGrid fsCont 2).getD 0 (Value.num 0))) = .ok preds ∧
      (wPdN.points.getD 0 (Value.num 0, none)).2 = nanMean preds ∧
      ((wPdN.points.getD 0 (Value.num 0, none)).2 = none ↔
        ∀ p ∈ preds, p = none) ∧
      (wPdN.nanWarning = true ↔
        ∃ v ∈ buildGrid XdegGrid fsCont 2, ∃ preds',
          wScNaN (overrideColumn XdegGrid (XdegGrid.schema.indexOf fsCont.name) v)
            = .ok preds' ∧
          hasNaN preds' = true) :=
  pdp_nan_semantics wScNaN XdegGrid fsCont 2 wPdN
    (by simp [PartialDependenceEngine.compute, buildGrid, linspace, listMin, listMax,
      colRats, colVals, ratOf, XdegGrid, fsCont, tryMap, gridEval, wScNaN, overrideColumn,
      setColumn, mapWithIdx, nanMean, hasNaN, pairUp, wPdN, List.range_succ, List.replicate])
    0
    (by simp [buildGrid, fsCont, XdegGrid, linspace, listMin, listMax, colRats,
      colVals, ratOf, List.range_succ])

/-- C10 witness: the data-preparation guarantees hold on the concrete frame
`wF` (three rows, one with a missing value). -/
theorem notebook_data_preparation_witness :
    "BAD" ∉ (wF.dropna.pop "BAD").2.cols ∧
    (wF.dropna.pop "BAD").1.length = (wF.dropna.pop "BAD").2.rows.length ∧
    (∀ r ∈ (wF.dropna.pop "BAD").2.rows, ∀ v ∈ r, v.isSome = true) ∧
    (∀ v ∈ (wF.dropna.pop "BAD").1, v.isSome = true) ∧
    trainTestSplit (wF.dropna.pop "BAD").2 (wF.dropna.pop "BAD").1 (3 / 10) 888
      = trainTestSplit (wF.dropna.pop "BAD").2 (wF.dropna.pop "BAD").1 (3 / 10) 888 :=
  notebook_data_preparation wF (by decide) (by decide) (by decide)

end XAI
